import Mathlib

/-!
Blog record service (`server/server.go`).

A shallow embedding of the five request handlers of `BlogServiceServer`
(`ReadBlog`, `CreateBlog`, `UpdateBlog`, `DeleteBlog`, `ListBlogs`) together
with the parts of their collaborators the handlers rely on:

* the identifier codec `primitive.ObjectIDFromHex` / `ObjectID.Hex` (on top of
  Go's `encoding/hex`: digits of either case are read, lower case is written);
* the collection handle `blogdb` (`FindOne`, `InsertOne`, `FindOneAndUpdate`,
  `DeleteOne`, `Find`), as explicit state: the stored documents in natural
  order plus the log of calls made on the handle;
* the cursor returned by `Find` (`Next`, `Decode`, `Err`, `Close`), with a
  count of its `Close` calls;
* BSON decoding of a stored document into a `BlogItem`.

Conventions.

* Go's `(response, error)` results are values of `Outcome`; the text carried by
  a gRPC status is left out, only its code is kept.
* The package variable `blogdb` is the first argument of every handler and is
  returned with the result.
* What the environment decides is an argument of the handler: whether the
  storage call fails in transport (`fault`; a failed call has no effect on the
  documents), which identifier the driver generates for an insert
  (`generated`), and after how many documents a cursor breaks (`failAfter`).
* Stored documents have the four elements `_id`, `author_id`, `title`,
  `content`; each of the last three may be absent or of another type than
  string, `_id` may be of another type than ObjectID.
-/

namespace Blog

/-! ## Identifier codec -/

/-- Go `encoding/hex.fromHexChar`: the value of one hexadecimal digit, in either
case; `none` is the `false` result. Characters are compared by code point, a
byte of a multi-byte character (all of them `≥ 0x80`) is never a digit. -/
def fromHexChar (c : Char) : Option Nat :=
  if '0'.toNat ≤ c.toNat ∧ c.toNat ≤ '9'.toNat then some (c.toNat - '0'.toNat)
  else if 'a'.toNat ≤ c.toNat ∧ c.toNat ≤ 'f'.toNat then some (c.toNat - 'a'.toNat + 10)
  else if 'A'.toNat ≤ c.toNat ∧ c.toNat ≤ 'F'.toNat then some (c.toNat - 'A'.toNat + 10)
  else none

/-- Go `encoding/hex.hextable`. -/
def hextable : List Char := "0123456789abcdef".data

/-- Go `encoding/hex.Decode`: two digits per byte, `(a << 4) | b`; `none` is an
`InvalidByteError` or `ErrLength`. -/
def hexDecode : List Char → Option (List (Fin 256))
  | [] => some []
  | [_] => none
  | p :: q :: rest =>
    match fromHexChar p, fromHexChar q with
    | some a, some b =>
      match hexDecode rest with
      | some tl => some (Fin.ofNat (a * 16 + b) :: tl)
      | none => none
    | _, _ => none

/-- Go `encoding/hex.Encode`: `hextable[v >> 4]`, `hextable[v & 0x0f]` for every byte. -/
def hexEncode : List (Fin 256) → List Char
  | [] => []
  | v :: rest =>
    hextable.getD (v.val / 16) '0' :: hextable.getD (v.val % 16) '0' :: hexEncode rest

/-- Driver `primitive.ObjectID`, a `[12]byte`. -/
structure ObjectID where
  bytes : List (Fin 256)
  size : bytes.length = 12
deriving DecidableEq

/-- Driver `primitive.NilObjectID`, the zero value. -/
def NilObjectID : ObjectID := ⟨List.replicate 12 0, rfl⟩

/-- Driver `primitive.ObjectIDFromHex`: the string must be 24 bytes long and decode as
hexadecimal into the 12 bytes of the identifier; `none` is the error return. -/
def ObjectIDFromHex (s : String) : Option ObjectID :=
  if s.utf8ByteSize ≠ 24 then none
  else
    match hexDecode s.data with
    | none => none
    | some bytes => if h : bytes.length = 12 then some ⟨bytes, h⟩ else none

/-- Driver `ObjectID.Hex`: `hex.EncodeToString(id[:])`. -/
def ObjectID.Hex (id : ObjectID) : String := String.mk (hexEncode id.bytes)

/-! ## Messages (`proto`) -/

namespace pb

/-- Message `pb.Blog`. -/
structure Blog where
  Id : String
  AuthorId : String
  Title : String
  Content : String
deriving DecidableEq, Repr

/-- Generated getter: the empty string on a nil message. -/
def Blog.GetId : Option Blog → String
  | some b => b.Id
  | none => ""

/-- Generated getter: the empty string on a nil message. -/
def Blog.GetAuthorId : Option Blog → String
  | some b => b.AuthorId
  | none => ""

/-- Generated getter: the empty string on a nil message. -/
def Blog.GetTitle : Option Blog → String
  | some b => b.Title
  | none => ""

/-- Generated getter: the empty string on a nil message. -/
def Blog.GetContent : Option Blog → String
  | some b => b.Content
  | none => ""

/-- Message `pb.ReadBlogReq`. -/
structure ReadBlogReq where
  Id : String
deriving DecidableEq, Repr

/-- Message `pb.CreateBlog`: the blog message is a pointer and may be nil. -/
structure CreateBlog where
  Blog : Option Blog
deriving DecidableEq, Repr

/-- Message `pb.UpdateBlog`: the blog message is a pointer and may be nil. -/
structure UpdateBlog where
  Blog : Option Blog
deriving DecidableEq, Repr

/-- Message `pb.DeleteBlog`. -/
structure DeleteBlog where
  Id : String
deriving DecidableEq, Repr

/-- Message `pb.BlogRes`. -/
structure BlogRes where
  Blog : Option Blog
deriving DecidableEq, Repr

/-- Message `pb.DeleteBlogRes`. -/
structure DeleteBlogRes where
  Success : Bool
deriving DecidableEq, Repr

/-- Message `pb.ListBlogsReq`: no fields. -/
structure ListBlogsReq where
deriving DecidableEq, Repr

/-- Message `pb.ListBlogsRes`. -/
structure ListBlogsRes where
  Blog : Option Blog
deriving DecidableEq, Repr

end pb

/-! ## Results -/

/-- The `codes` constants the handlers use. -/
inductive Code where
  | InvalidArgument
  | NotFound
  | Internal
  | Unavailable
deriving DecidableEq, Repr

/-- What a unary handler call ends in: `(res, nil)`, `(nil, status.Errorf(c, …))`,
or a run-time panic. -/
inductive Outcome (α : Type) where
  | ok (res : α)
  | status (c : Code)
  | panic
deriving DecidableEq, Repr

/-! ## Stored documents and BSON decoding -/

/-- The value of the `_id` element of a stored document: an ObjectID, or a
value of a BSON type that does not decode into `primitive.ObjectID` (a 32-bit
integer stands for those). -/
inductive IdValue where
  | objectID (o : ObjectID)
  | int32 (n : Int)
deriving DecidableEq

/-- The value of a field element of a stored document: a string, or a value of
a BSON type that does not decode into a Go `string` (a 32-bit integer stands
for those). -/
inductive FieldValue where
  | string (s : String)
  | int32 (n : Int)
deriving DecidableEq

/-- A document of the collection. Every stored document has an `_id`; the
collection is schema-free, so each of the three other elements may be absent
or carry a value of another type. Elements under other keys are not
represented; the handlers never write any. -/
structure Document where
  _id : IdValue
  author_id : Option FieldValue
  title : Option FieldValue
  content : Option FieldValue
deriving DecidableEq

/-- Struct `BlogItem`. -/
structure BlogItem where
  ID : ObjectID
  AuthorID : String
  Content : String
  Title : String
deriving DecidableEq

/-- The zero value `BlogItem{}`. -/
def BlogItem.zero : BlogItem := ⟨NilObjectID, "", "", ""⟩

/-- Errors of the storage layer. -/
inductive StoreErr where
  | ErrNoDocuments
  | transport
  | duplicateKey
  | decode
deriving DecidableEq, Repr

/-- Decoding an `_id` element into the `ID` field. -/
def decodeID : IdValue → Except StoreErr ObjectID
  | .objectID o => .ok o
  | .int32 _ => .error .decode

/-- Decoding a field element into a `string` field; an absent element leaves
the field of the destination as it is. -/
def decodeString (old : String) : Option FieldValue → Except StoreErr String
  | none => .ok old
  | some (.string s) => .ok s
  | some (.int32 _) => .error .decode

/-- Driver `bson.Unmarshal` of a document into an existing `BlogItem` (what `Decode`
does on a single result and on a cursor): each element present in the document
is decoded into its field; the destination is not zeroed first (the struct
codec's `DecodeZeroStruct` is off by default), so a field whose element is
absent keeps the value it had. Any failing element fails the whole decode. -/
def unmarshal (d : Document) (data : BlogItem) : Except StoreErr BlogItem :=
  match decodeID d._id, decodeString data.AuthorID d.author_id,
      decodeString data.Title d.title, decodeString data.Content d.content with
  | .ok id, .ok a, .ok t, .ok c => .ok { ID := id, AuthorID := a, Content := c, Title := t }
  | _, _, _, _ => .error .decode

/-- Driver `bson.Marshal` of a `BlogItem` for insertion: `_id` is `omitempty`, so a
zero `ID` is left out and the driver fills in the identifier it generated. -/
def marshal (item : BlogItem) (generated : ObjectID) : Document :=
  { _id := .objectID (if item.ID = NilObjectID then generated else item.ID)
    author_id := some (.string item.AuthorID)
    title := some (.string item.Title)
    content := some (.string item.Content) }

/-! ## The collection handle -/

/-- The `$set` document built by `UpdateBlog`. -/
structure SetUpdate where
  author_id : String
  title : String
  content : String
deriving DecidableEq

/-- A call made on the collection handle. -/
inductive Call where
  | FindOne (oid : ObjectID)
  | InsertOne (item : BlogItem)
  | FindOneAndUpdate (oid : ObjectID) (upd : SetUpdate)
  | DeleteOne (oid : ObjectID)
  | Find
deriving DecidableEq

/-- The collection behind `blogdb`: its documents in natural order and the log
of the calls made on the handle. -/
structure Collection where
  docs : List Document
  calls : List Call
deriving DecidableEq

/-- The filter `bson.M{"_id": oid}`. -/
def matchesId (oid : ObjectID) (d : Document) : Bool :=
  decide (d._id = .objectID oid)

/-- Applying `{"$set": update}` to a document. -/
def applySet (upd : SetUpdate) (d : Document) : Document :=
  { d with
    author_id := some (.string upd.author_id)
    title := some (.string upd.title)
    content := some (.string upd.content) }

/-- Update the first document matching the filter; the document after the
update and the new list, `none` when nothing matches. -/
def updateFirst (oid : ObjectID) (upd : SetUpdate) : List Document → Option (Document × List Document)
  | [] => none
  | d :: ds =>
    if matchesId oid d then some (applySet upd d, applySet upd d :: ds)
    else
      match updateFirst oid upd ds with
      | some (r, ds') => some (r, d :: ds')
      | none => none

/-- Delete the first document matching the filter; the number of documents
deleted and the new list. -/
def deleteFirst (oid : ObjectID) : List Document → Nat × List Document
  | [] => (0, [])
  | d :: ds =>
    if matchesId oid d then (1, ds)
    else ((deleteFirst oid ds).1, d :: (deleteFirst oid ds).2)

/-- Driver `*mongo.SingleResult`: the document found, or the error the call ended in. -/
abbrev SingleResult := Except StoreErr Document

/-- Driver `SingleResult.Decode`: the error of the result if it has one, else the
document unmarshalled into `data`. -/
def SingleResult.Decode (r : SingleResult) (data : BlogItem) : Except StoreErr BlogItem :=
  match r with
  | .error e => .error e
  | .ok d => unmarshal d data

/-- Driver `Collection.FindOne` with filter `{"_id": oid}`. -/
def Collection.FindOne (c : Collection) (fault : Bool) (oid : ObjectID) : SingleResult × Collection :=
  let c1 : Collection := { c with calls := c.calls ++ [Call.FindOne oid] }
  if fault then (.error .transport, c1)
  else
    match c.docs.find? (matchesId oid) with
    | some d => (.ok d, c1)
    | none => (.error .ErrNoDocuments, c1)

/-- Driver `*mongo.InsertOneResult`. -/
structure InsertOneResult where
  InsertedID : IdValue
deriving DecidableEq

/-- Driver `Collection.InsertOne`: `generated` is the identifier the driver draws for
a document without `_id`; the unique index on `_id` rejects an identifier that
is already present. -/
def Collection.InsertOne (c : Collection) (fault : Bool) (generated : ObjectID) (item : BlogItem) :
    Except StoreErr InsertOneResult × Collection :=
  let c1 : Collection := { c with calls := c.calls ++ [Call.InsertOne item] }
  if fault then (.error .transport, c1)
  else
    let d := marshal item generated
    if c.docs.any (fun e => decide (e._id = d._id)) then (.error .duplicateKey, c1)
    else (.ok ⟨d._id⟩, { c1 with docs := c.docs ++ [d] })

/-- Driver `Collection.FindOneAndUpdate` with filter `{"_id": oid}`, update
`{"$set": upd}` and `SetReturnDocument(1)` (`options.After`): the result holds
the document as it is after the update. -/
def Collection.FindOneAndUpdate (c : Collection) (fault : Bool) (oid : ObjectID) (upd : SetUpdate) :
    SingleResult × Collection :=
  let c1 : Collection := { c with calls := c.calls ++ [Call.FindOneAndUpdate oid upd] }
  if fault then (.error .transport, c1)
  else
    match updateFirst oid upd c.docs with
    | some (d, ds) => (.ok d, { c1 with docs := ds })
    | none => (.error .ErrNoDocuments, c1)

/-- Driver `*mongo.DeleteResult`. -/
structure DeleteResult where
  DeletedCount : Nat
deriving DecidableEq

/-- Driver `Collection.DeleteOne` with filter `{"_id": oid}`. -/
def Collection.DeleteOne (c : Collection) (fault : Bool) (oid : ObjectID) :
    Except StoreErr DeleteResult × Collection :=
  let c1 : Collection := { c with calls := c.calls ++ [Call.DeleteOne oid] }
  if fault then (.error .transport, c1)
  else (.ok ⟨(deleteFirst oid c.docs).1⟩, { c1 with docs := (deleteFirst oid c.docs).2 })

/-! ## Cursors -/

/-- Driver `*mongo.Cursor`: the documents still to be delivered, the document under
the cursor, the error recorded by `Next`, and how many times `Close` has run.
`failAfter = some n` is a fault of the environment: the transport breaks once
`n` documents have been delivered. -/
structure Cursor where
  batch : List Document
  failAfter : Option Nat
  Current : Option Document
  err : Option StoreErr
  closed : Nat
deriving DecidableEq

/-- Driver `Cursor.Next`: `false` when the documents are exhausted or fetching the
next one failed (the failure is kept for `Err`). -/
def Cursor.Next (c : Cursor) : Bool × Cursor :=
  match c.failAfter with
  | some 0 => (false, { c with err := some .transport })
  | fa =>
    match c.batch with
    | [] => (false, c)
    | d :: rest =>
      (true, { c with batch := rest, Current := some d, failAfter := fa.map (· - 1) })

/-- Driver `Cursor.Decode`: unmarshal the current document into `data`. -/
def Cursor.Decode (c : Cursor) (data : BlogItem) : Except StoreErr BlogItem :=
  match c.Current with
  | some d => unmarshal d data
  | none => .error .decode

/-- Driver `Cursor.Err`. -/
def Cursor.Err (c : Cursor) : Option StoreErr := c.err

/-- Driver `Cursor.Close`. -/
def Cursor.Close (c : Cursor) : Cursor := { c with closed := c.closed + 1 }

/-- Driver `Collection.Find` with the empty filter `bson.M{}`: a cursor over every
document of the collection. -/
def Collection.Find (c : Collection) (fault : Bool) (failAfter : Option Nat) :
    Except StoreErr Cursor × Collection :=
  let c1 : Collection := { c with calls := c.calls ++ [Call.Find] }
  if fault then (.error .transport, c1)
  else (.ok ⟨c.docs, failAfter, none, none, 0⟩, c1)

/-! ## The handlers -/

namespace BlogServiceServer

/-- Handler `BlogServiceServer.ReadBlog`. The response literal of the source
spells its fields `AuthorID`, `title`, `content`; they are read as the
`AuthorId`, `Title` and `Content` fields of `pb.Blog`. -/
def ReadBlog (blogdb : Collection) (fault : Bool) (req : pb.ReadBlogReq) :
    Outcome pb.BlogRes × Collection :=
  match ObjectIDFromHex req.Id with
  | none => (.status .InvalidArgument, blogdb)
  | some oid =>
    let result := blogdb.FindOne fault oid
    match result.1.Decode BlogItem.zero with
    | .error _ => (.status .NotFound, result.2)
    | .ok data =>
      (.ok ⟨some { Id := oid.Hex, AuthorId := data.AuthorID, Title := data.Title,
                   Content := data.Content }⟩, result.2)

/-- Handler `BlogServiceServer.CreateBlog`. The type assertion on `InsertedID` and the
assignment `blog.Id = oid.Hex()` through a nil `blog` are the two places that
can panic. -/
def CreateBlog (blogdb : Collection) (fault : Bool) (generated : ObjectID) (req : pb.CreateBlog) :
    Outcome pb.BlogRes × Collection :=
  let blog := req.Blog
  let data : BlogItem :=
    { ID := NilObjectID, AuthorID := pb.Blog.GetAuthorId blog, Title := pb.Blog.GetTitle blog,
      Content := pb.Blog.GetContent blog }
  let r := blogdb.InsertOne fault generated data
  match r.1 with
  | .error _ => (.status .Internal, r.2)
  | .ok result =>
    match result.InsertedID with
    | .int32 _ => (.panic, r.2)
    | .objectID oid =>
      match blog with
      | none => (.panic, r.2)
      | some b => (.ok ⟨some { b with Id := oid.Hex }⟩, r.2)

/-- Handler `BlogServiceServer.UpdateBlog`. -/
def UpdateBlog (blogdb : Collection) (fault : Bool) (req : pb.UpdateBlog) :
    Outcome pb.BlogRes × Collection :=
  let blog := req.Blog
  match ObjectIDFromHex (pb.Blog.GetId blog) with
  | none => (.status .InvalidArgument, blogdb)
  | some oid =>
    let update : SetUpdate :=
      { author_id := pb.Blog.GetAuthorId blog, title := pb.Blog.GetTitle blog,
        content := pb.Blog.GetContent blog }
    let result := blogdb.FindOneAndUpdate fault oid update
    match result.1.Decode BlogItem.zero with
    | .error _ => (.status .NotFound, result.2)
    | .ok data =>
      (.ok ⟨some { Id := data.ID.Hex, AuthorId := data.AuthorID, Title := data.Title,
                   Content := data.Content }⟩, result.2)

/-- Handler `BlogServiceServer.DeleteBlog`. -/
def DeleteBlog (blogdb : Collection) (fault : Bool) (req : pb.DeleteBlog) :
    Outcome pb.DeleteBlogRes × Collection :=
  match ObjectIDFromHex req.Id with
  | none => (.status .InvalidArgument, blogdb)
  | some oid =>
    let r := blogdb.DeleteOne fault oid
    match r.1 with
    | .error _ => (.status .InvalidArgument, r.2)
    | .ok _ => (.ok ⟨true⟩, r.2)

/-- How the `for cursor.Next(…)` loop of `ListBlogs` is left: by the `return`
inside its body, or because `Next` answered `false`. -/
inductive LoopExit where
  | returned (c : Code)
  | finished
deriving DecidableEq, Repr

/-- The record `ListBlogs` sends for the current contents of `data`. -/
def ListBlogs.record (data : BlogItem) : pb.ListBlogsRes :=
  ⟨some { Id := data.ID.Hex, AuthorId := data.AuthorID, Content := data.Content,
          Title := data.Title }⟩

/-- The loop of `ListBlogs`: `data` is the one `BlogItem` allocated before the
loop, `stream` the messages sent so far (the result of `stream.Send` is
discarded by the handler). `fuel` bounds the number of `Next` calls; `none`
means the bound was reached. -/
def ListBlogs.loop : Nat → Cursor → BlogItem → List pb.ListBlogsRes →
    Option (LoopExit × Cursor × List pb.ListBlogsRes)
  | 0, _, _, _ => none
  | fuel + 1, cursor, data, stream =>
    match cursor.Next with
    | (false, cursor1) => some (.finished, cursor1, stream)
    | (true, cursor1) =>
      match cursor1.Decode data with
      | .error _ => some (.returned .Unavailable, cursor1, stream)
      | .ok data1 => ListBlogs.loop fuel cursor1 data1 (stream ++ [ListBlogs.record data1])

/-- What is observable when `ListBlogs` returns: its `error` result, the
messages sent on the stream, the cursor (if one was opened) in its final
state, and the collection handle. -/
structure ListBlogsResult where
  err : Option Code
  stream : List pb.ListBlogsRes
  cursor : Option Cursor
  blogdb : Collection
deriving DecidableEq

/-- Handler `BlogServiceServer.ListBlogs`. `fault` makes `Find` fail, `failAfter` is
the fault of the cursor; the deferred `cursor.Close` runs on every return path
once the cursor is open. The loop gets one `Next` call more than there are
documents; `none` means it did not finish within them. -/
def ListBlogs (blogdb : Collection) (fault : Bool) (failAfter : Option Nat)
    (_req : pb.ListBlogsReq) (stream : List pb.ListBlogsRes) : Option ListBlogsResult :=
  let data := BlogItem.zero
  let r := blogdb.Find fault failAfter
  match r.1 with
  | .error _ => some ⟨some .Internal, stream, none, r.2⟩
  | .ok cursor =>
    match ListBlogs.loop (cursor.batch.length + 1) cursor data stream with
    | none => none
    | some (.returned c, cursor1, stream1) => some ⟨some c, stream1, some cursor1.Close, r.2⟩
    | some (.finished, cursor1, stream1) =>
      match cursor1.Err with
      | some _ => some ⟨some .Internal, stream1, some cursor1.Close, r.2⟩
      | none => some ⟨none, stream1, some cursor1.Close, r.2⟩

end BlogServiceServer

/-! ## Auxiliary definitions for the statements -/

/-- Equality of `Except` values is decidable. -/
instance instDecidableEqExcept {ε α : Type} [DecidableEq ε] [DecidableEq α] :
    DecidableEq (Except ε α)
  | .ok a, .ok b =>
    if h : a = b then isTrue (by rw [h]) else isFalse (fun h2 => h (by cases h2; rfl))
  | .error a, .error b =>
    if h : a = b then isTrue (by rw [h]) else isFalse (fun h2 => h (by cases h2; rfl))
  | .ok _, .error _ => isFalse (fun h => by cases h)
  | .error _, .ok _ => isFalse (fun h => by cases h)

/-- ASCII lower-casing of one hexadecimal digit: `A`–`F` become `a`–`f`. -/
def lowerDigit (c : Char) : Char :=
  if 'A'.toNat ≤ c.toNat ∧ c.toNat ≤ 'F'.toNat then Char.ofNat (c.toNat + 32) else c

/-- A string with its digits `A`–`F` in lower case. -/
def lowerHex (s : String) : String := String.mk (s.data.map lowerDigit)

/-- The document carries all three field elements (of whatever type). -/
def Document.complete (d : Document) : Prop :=
  d.author_id ≠ none ∧ d.title ≠ none ∧ d.content ≠ none

/-- Completeness of a document is decidable. -/
instance instDecidableComplete (d : Document) : Decidable d.complete := by
  unfold Document.complete
  infer_instance

/-- The record of a document on its own: the document decoded into a fresh
`BlogItem{}`, as `ReadBlog` does, rendered as a list message; `none` when the
document does not decode. -/
def recordOf (d : Document) : Option pb.ListBlogsRes :=
  match unmarshal d BlogItem.zero with
  | .ok item => some (BlogServiceServer.ListBlogs.record item)
  | .error _ => none

/-! ## Sample data -/

/-- The identifier `5f1e3c2a9b7d4e0012345678`. -/
def sampleId : ObjectID :=
  ⟨[0x5f, 0x1e, 0x3c, 0x2a, 0x9b, 0x7d, 0x4e, 0x00, 0x12, 0x34, 0x56, 0x78], rfl⟩

/-- The identifier `abcdefabcdefabcdefabcdef`. -/
def lettersId : ObjectID :=
  ⟨[0xab, 0xcd, 0xef, 0xab, 0xcd, 0xef, 0xab, 0xcd, 0xef, 0xab, 0xcd, 0xef], rfl⟩

/-- The identifier `010101010101010101010101`, not present in `sampleDb`. -/
def freshId : ObjectID := ⟨List.replicate 12 1, rfl⟩

/-- A well-formed document under `sampleId`. -/
def sampleDoc : Document :=
  { _id := .objectID sampleId, author_id := some (.string "a0"), title := some (.string "T0"),
    content := some (.string "C0") }

/-- A well-formed document under `lettersId`. -/
def lettersDoc : Document :=
  { _id := .objectID lettersId, author_id := some (.string "a9"), title := some (.string "T9"),
    content := some (.string "C9") }

/-- A document under `sampleId` whose `title` is not a string. -/
def badTitleDoc : Document :=
  { _id := .objectID sampleId, author_id := some (.string "a0"), title := some (.int32 7),
    content := some (.string "C0") }

/-- A document under `lettersId` written without a `title` element. -/
def untitledDoc : Document :=
  { _id := .objectID lettersId, author_id := some (.string "a9"), title := none,
    content := some (.string "C9") }

/-- A collection holding `sampleDoc` and `lettersDoc`, no call made yet. -/
def sampleDb : Collection := ⟨[sampleDoc, lettersDoc], []⟩

open BlogServiceServer

/-! ## Identifier codec: round trips -/

/-- Every entry of the digit table is a one-byte character. -/
theorem hextable_getD_size (n : Nat) : (hextable.getD n '0').utf8Size = 1 := by
  by_cases h : n < 16
  · interval_cases n <;> decide
  · have : hextable.length ≤ n := by simpa [hextable] using Nat.le_of_not_lt h
    rw [List.getD_eq_default _ _ this]; decide

/-- The digit written for a value below 16 reads back as that value. -/
theorem fromHexChar_hextable (n : Nat) (h : n < 16) :
    fromHexChar (hextable.getD n '0') = some n := by
  interval_cases n <;> decide

/-- A digit value is below 16. -/
theorem fromHexChar_lt (c : Char) (n : Nat) (h : fromHexChar c = some n) : n < 16 := by
  unfold fromHexChar at h
  have e0 : '0'.toNat = 48 := by decide
  have e9 : '9'.toNat = 57 := by decide
  have ea : 'a'.toNat = 97 := by decide
  have ef : 'f'.toNat = 102 := by decide
  have eA : 'A'.toNat = 65 := by decide
  have eF : 'F'.toNat = 70 := by decide
  rw [e0, e9, ea, ef, eA, eF] at h
  split_ifs at h <;> simp at h <;> omega

/-- Writing the value of a digit gives the digit in lower case. -/
theorem hextable_fromHexChar (c : Char) (n : Nat) (h : fromHexChar c = some n) :
    hextable.getD n '0' = lowerDigit c := by
  have hc : Char.ofNat c.toNat = c := Char.ofNat_toNat c
  unfold fromHexChar at h
  unfold lowerDigit
  have e0 : '0'.toNat = 48 := by decide
  have e9 : '9'.toNat = 57 := by decide
  have ea : 'a'.toNat = 97 := by decide
  have ef : 'f'.toNat = 102 := by decide
  have eA : 'A'.toNat = 65 := by decide
  have eF : 'F'.toNat = 70 := by decide
  rw [e0, e9, ea, ef, eA, eF] at h
  rw [eA, eF]
  generalize c.toNat = k at h hc
  subst hc
  split_ifs at h with h1 h2 h3
  · obtain ⟨h1a, h1b⟩ := h1
    simp at h; subst h
    interval_cases k <;> decide
  · obtain ⟨h1a, h1b⟩ := h2
    simp at h; subst h
    interval_cases k <;> decide
  · obtain ⟨h1a, h1b⟩ := h3
    simp at h; subst h
    interval_cases k <;> decide

/-- Decoding the encoding of a byte list gives the byte list. -/
theorem hexDecode_hexEncode (bytes : List (Fin 256)) : hexDecode (hexEncode bytes) = some bytes := by
  induction bytes with
  | nil => rfl
  | cons v rest ih =>
    have h1 : v.val / 16 < 16 := by omega
    have h2 : v.val % 16 < 16 := by omega
    have hv : (Fin.ofNat (v.val / 16 * 16 + v.val % 16) : Fin 256) = v := by
      apply Fin.ext
      simp only [Fin.ofNat, Fin.val_mk]
      omega
    simp only [hexEncode, hexDecode, fromHexChar_hextable _ h1, fromHexChar_hextable _ h2, ih, hv]

/-- The encoding of a byte list is two bytes long per byte. -/
theorem utf8ByteSize_hexEncode (bytes : List (Fin 256)) :
    (String.mk (hexEncode bytes)).utf8ByteSize = 2 * bytes.length := by
  induction bytes with
  | nil => rfl
  | cons v rest ih =>
    simp only [String.utf8ByteSize, hexEncode, String.utf8ByteSize.go, hextable_getD_size,
      List.length_cons] at ih ⊢
    omega

/-- A string that decodes has two characters per decoded byte. -/
theorem hexDecode_length : ∀ (cs : List Char) (bytes : List (Fin 256)),
    hexDecode cs = some bytes → cs.length = 2 * bytes.length
  | [], bytes, h => by
    simp only [hexDecode, Option.some.injEq] at h
    subst h; rfl
  | [_], bytes, h => by simp [hexDecode] at h
  | p :: q :: rest, bytes, h => by
    simp only [hexDecode] at h
    split at h
    · split at h
      · rename_i tl htl
        simp only [Option.some.injEq] at h
        subst h
        have := hexDecode_length rest tl htl
        simp only [List.length_cons, this]
        omega
      · simp at h
    · simp at h

/-- Encoding the decoding of a string gives the string in lower case. -/
theorem hexEncode_hexDecode : ∀ (cs : List Char) (bytes : List (Fin 256)),
    hexDecode cs = some bytes → hexEncode bytes = cs.map lowerDigit
  | [], bytes, h => by
    simp only [hexDecode, Option.some.injEq] at h
    subst h; rfl
  | [_], bytes, h => by simp [hexDecode] at h
  | p :: q :: rest, bytes, h => by
    simp only [hexDecode] at h
    split at h
    · rename_i a b ha hb
      split at h
      · rename_i tl htl
        simp only [Option.some.injEq] at h
        subst h
        have ih := hexEncode_hexDecode rest tl htl
        have la := fromHexChar_lt p a ha
        have lb := fromHexChar_lt q b hb
        have e1 : (Fin.ofNat (a * 16 + b) : Fin 256).val / 16 = a := by
          simp only [Fin.ofNat, Fin.val_mk]; omega
        have e2 : (Fin.ofNat (a * 16 + b) : Fin 256).val % 16 = b := by
          simp only [Fin.ofNat, Fin.val_mk]; omega
        simp only [hexEncode, e1, e2, hextable_fromHexChar p a ha, hextable_fromHexChar q b hb,
          ih, List.map_cons]
      · simp at h
    · simp at h

/-- Re-encoding a translated identifier gives the string in lower case. -/
theorem Hex_ObjectIDFromHex (s : String) (oid : ObjectID) (h : ObjectIDFromHex s = some oid) :
    oid.Hex = lowerHex s := by
  unfold ObjectIDFromHex at h
  split_ifs at h with h1
  split at h
  · simp at h
  · rename_i bytes hb
    split_ifs at h with h2
    simp only [Option.some.injEq] at h
    subst h
    simp only [ObjectID.Hex, lowerHex, hexEncode_hexDecode _ _ hb]

/-- Translating the hexadecimal form of an identifier gives the identifier back. -/
theorem ObjectIDFromHex_Hex (oid : ObjectID) : ObjectIDFromHex oid.Hex = some oid := by
  unfold ObjectIDFromHex ObjectID.Hex
  have hs : (String.mk (hexEncode oid.bytes)).utf8ByteSize = 24 := by
    rw [utf8ByteSize_hexEncode, oid.size]
  simp only [hs, ne_eq, not_true_eq_false, if_false, hexDecode_hexEncode, oid.size, dite_true]

/-- The hexadecimal form of an identifier is 24 characters long. -/
theorem Hex_length (oid : ObjectID) : oid.Hex.length = 24 := by
  have := hexDecode_length _ _ (hexDecode_hexEncode oid.bytes)
  simp only [ObjectID.Hex, String.length, this, oid.size]

/-! ## Collection operations -/

/-- The filter holds exactly for the documents whose identifier is the ObjectID asked for. -/
theorem matchesId_iff (oid : ObjectID) (d : Document) :
    matchesId oid d = true ↔ d._id = .objectID oid := by
  simp [matchesId]

/-- A list with a matching document splits at its first match. -/
theorem first_match_split (oid : ObjectID) : ∀ (docs : List Document),
    (∃ d ∈ docs, d._id = .objectID oid) →
    ∃ pre d post, docs = pre ++ d :: post ∧ d._id = .objectID oid ∧
      ∀ e ∈ pre, e._id ≠ .objectID oid
  | [], h => by simp at h
  | x :: xs, h => by
    by_cases hx : x._id = .objectID oid
    · exact ⟨[], x, xs, rfl, hx, by simp⟩
    · have h2 : ∃ d ∈ xs, d._id = .objectID oid := by
        obtain ⟨d, hd, hid⟩ := h
        rcases List.mem_cons.mp hd with rfl | hd
        · exact absurd hid hx
        · exact ⟨d, hd, hid⟩
      obtain ⟨pre, d, post, he, hid, hpre⟩ := first_match_split oid xs h2
      refine ⟨x :: pre, d, post, by simp [he], hid, ?_⟩
      intro e he2
      rcases List.mem_cons.mp he2 with rfl | he2
      · exact hx
      · exact hpre e he2

/-- The first match is what `find?` returns. -/
theorem find_split (oid : ObjectID) (pre post : List Document) (d : Document)
    (hd : d._id = .objectID oid) (hpre : ∀ e ∈ pre, e._id ≠ .objectID oid) :
    (pre ++ d :: post).find? (matchesId oid) = some d := by
  induction pre with
  | nil => simp [List.find?, (matchesId_iff oid d).mpr hd]
  | cons x xs ih =>
    have hx : matchesId oid x = false := by
      simpa [matchesId] using hpre x (List.mem_cons_self _ _)
    simp only [List.cons_append, List.find?, hx]
    exact ih (fun e he => hpre e (List.mem_cons_of_mem _ he))

/-- Without a matching document `find?` returns nothing. -/
theorem find_none (oid : ObjectID) (docs : List Document)
    (h : ∀ e ∈ docs, e._id ≠ .objectID oid) : docs.find? (matchesId oid) = none := by
  rw [List.find?_eq_none]
  intro e he
  simpa [matchesId] using h e he

/-- The update rewrites the first match in place. -/
theorem updateFirst_split (oid : ObjectID) (upd : SetUpdate) (pre post : List Document)
    (d : Document) (hd : d._id = .objectID oid) (hpre : ∀ e ∈ pre, e._id ≠ .objectID oid) :
    updateFirst oid upd (pre ++ d :: post) = some (applySet upd d, pre ++ applySet upd d :: post) := by
  induction pre with
  | nil => simp [updateFirst, (matchesId_iff oid d).mpr hd]
  | cons x xs ih =>
    have hx : matchesId oid x = false := by
      simpa [matchesId] using hpre x (List.mem_cons_self _ _)
    have ih2 := ih (fun e he => hpre e (List.mem_cons_of_mem _ he))
    rw [List.cons_append]
    simp only [updateFirst, hx]
    rw [ih2]
    simp

/-- Without a matching document nothing is updated. -/
theorem updateFirst_none (oid : ObjectID) (upd : SetUpdate) (docs : List Document)
    (h : ∀ e ∈ docs, e._id ≠ .objectID oid) : updateFirst oid upd docs = none := by
  induction docs with
  | nil => rfl
  | cons x xs ih =>
    have hx : matchesId oid x = false := by
      simpa [matchesId] using h x (List.mem_cons_self _ _)
    have ih2 := ih (fun e he => h e (List.mem_cons_of_mem _ he))
    simp only [updateFirst, hx]
    rw [ih2]
    simp

/-- The delete removes the first match and nothing else. -/
theorem deleteFirst_split (oid : ObjectID) (pre post : List Document)
    (d : Document) (hd : d._id = .objectID oid) (hpre : ∀ e ∈ pre, e._id ≠ .objectID oid) :
    deleteFirst oid (pre ++ d :: post) = (1, pre ++ post) := by
  induction pre with
  | nil => simp [deleteFirst, (matchesId_iff oid d).mpr hd]
  | cons x xs ih =>
    have hx : matchesId oid x = false := by
      simpa [matchesId] using hpre x (List.mem_cons_self _ _)
    have ih2 := ih (fun e he => hpre e (List.mem_cons_of_mem _ he))
    rw [List.cons_append]
    simp only [deleteFirst, hx]
    rw [ih2]
    simp

/-- Without a matching document nothing is deleted. -/
theorem deleteFirst_none (oid : ObjectID) (docs : List Document)
    (h : ∀ e ∈ docs, e._id ≠ .objectID oid) : deleteFirst oid docs = (0, docs) := by
  induction docs with
  | nil => rfl
  | cons x xs ih =>
    have hx : matchesId oid x = false := by
      simpa [matchesId] using h x (List.mem_cons_self _ _)
    have ih2 := ih (fun e he => h e (List.mem_cons_of_mem _ he))
    simp only [deleteFirst, hx]
    rw [ih2]
    simp

/-- A document with an ObjectID identifier decodes after the update, to the values set. -/
theorem unmarshal_applySet (upd : SetUpdate) (d : Document) (oid : ObjectID) (data : BlogItem)
    (hd : d._id = .objectID oid) :
    unmarshal (applySet upd d) data =
      .ok { ID := oid, AuthorID := upd.author_id, Content := upd.content, Title := upd.title } := by
  simp [unmarshal, applySet, decodeID, decodeString, hd]

/-! ## Unary handlers -/

/-- C1: an identifier string that does not parse makes ReadBlog, UpdateBlog and
DeleteBlog each return InvalidArgument with no response, and the collection
handle is returned exactly as it was: same documents, same log of storage
calls. -/
theorem malformed_id_rejected_before_storage (blogdb : Collection) (fault : Bool) (id : String)
    (ureq : pb.UpdateBlog) (hu : pb.Blog.GetId ureq.Blog = id) (h : ObjectIDFromHex id = none) :
    ReadBlog blogdb fault ⟨id⟩ = (.status .InvalidArgument, blogdb) ∧
    UpdateBlog blogdb fault ureq = (.status .InvalidArgument, blogdb) ∧
    DeleteBlog blogdb fault ⟨id⟩ = (.status .InvalidArgument, blogdb) := by
  subst hu
  refine ⟨?_, ?_, ?_⟩
  · simp only [ReadBlog, h]
  · simp only [UpdateBlog, h]
  · simp only [DeleteBlog, h]

/-- C1 at the identifier string `not-a-hex-id` on `sampleDb`. -/
theorem malformed_id_rejected_before_storage_witness :
    ObjectIDFromHex "not-a-hex-id" = none ∧
    ReadBlog sampleDb false ⟨"not-a-hex-id"⟩ = (.status .InvalidArgument, sampleDb) ∧
    UpdateBlog sampleDb false ⟨some ⟨"not-a-hex-id", "a", "t", "c"⟩⟩
      = (.status .InvalidArgument, sampleDb) ∧
    DeleteBlog sampleDb false ⟨"not-a-hex-id"⟩ = (.status .InvalidArgument, sampleDb) :=
  ⟨by decide, malformed_id_rejected_before_storage sampleDb false "not-a-hex-id"
    ⟨some ⟨"not-a-hex-id", "a", "t", "c"⟩⟩ rfl (by decide)⟩

/-- A successful insert: no fault, the identifier was not present, and the marshalled
document has been appended. -/
theorem InsertOne_ok (blogdb : Collection) (fault : Bool) (generated : ObjectID) (item : BlogItem)
    (res : InsertOneResult) (h : (blogdb.InsertOne fault generated item).1 = .ok res) :
    fault = false ∧ (∀ e ∈ blogdb.docs, e._id ≠ (marshal item generated)._id) ∧
    res = ⟨(marshal item generated)._id⟩ ∧
    (blogdb.InsertOne fault generated item).2.docs = blogdb.docs ++ [marshal item generated] := by
  unfold Collection.InsertOne at h ⊢
  cases fault with
  | true => simp at h
  | false =>
    by_cases hany : blogdb.docs.any (fun e => decide (e._id = (marshal item generated)._id)) = true
    · simp [hany] at h
    · simp only [Bool.false_eq_true, if_false, hany] at h ⊢
      refine ⟨trivial, ?_, ?_, trivial⟩
      · intro e he heq
        apply hany
        rw [List.any_eq_true]
        exact ⟨e, he, by simpa using heq⟩
      · simpa using h.symm

/-- A failed insert leaves the documents as they were. -/
theorem InsertOne_error_docs (blogdb : Collection) (fault : Bool) (generated : ObjectID)
    (item : BlogItem) (e : StoreErr) (h : (blogdb.InsertOne fault generated item).1 = .error e) :
    (blogdb.InsertOne fault generated item).2.docs = blogdb.docs := by
  unfold Collection.InsertOne at h ⊢
  cases fault with
  | true => simp
  | false =>
    by_cases hany : blogdb.docs.any (fun e => decide (e._id = (marshal item generated)._id)) = true
    · simp [hany]
    · simp [hany] at h

/-- C2: when the insert succeeds, CreateBlog returns a record with a non-empty
id (the hex form of the identifier the storage assigned) and exactly the
supplied authorId, title and content, and ReadBlog with that id on the
resulting store (storage healthy) returns the same id and the same three
fields. -/
theorem create_then_read (blogdb : Collection) (fault : Bool) (generated : ObjectID)
    (reqId authorId title content : String)
    (h : ∃ res, (blogdb.InsertOne fault generated
      { ID := NilObjectID, AuthorID := authorId, Title := title, Content := content }).1 = .ok res) :
    (CreateBlog blogdb fault generated ⟨some ⟨reqId, authorId, title, content⟩⟩).1
      = .ok ⟨some ⟨generated.Hex, authorId, title, content⟩⟩ ∧
    generated.Hex ≠ "" ∧
    (ReadBlog (CreateBlog blogdb fault generated ⟨some ⟨reqId, authorId, title, content⟩⟩).2
      false ⟨generated.Hex⟩).1 = .ok ⟨some ⟨generated.Hex, authorId, title, content⟩⟩ := by
  obtain ⟨res, hres⟩ := h
  obtain ⟨_, hfresh, hr, hdocs⟩ := InsertOne_ok _ _ _ _ _ hres
  have hm : (marshal ⟨NilObjectID, authorId, content, title⟩ generated)._id
      = .objectID generated := by
    simp [marshal]
  rw [hm] at hfresh hr
  refine ⟨?_, ?_, ?_⟩
  · simp only [CreateBlog, pb.Blog.GetAuthorId, pb.Blog.GetTitle, pb.Blog.GetContent, hres, hr]
  · intro he
    have := Hex_length generated
    rw [he] at this
    exact absurd this (by decide)
  · simp only [CreateBlog, pb.Blog.GetAuthorId, pb.Blog.GetTitle, pb.Blog.GetContent, hres, hr]
    simp only [ReadBlog, ObjectIDFromHex_Hex, Collection.FindOne, Bool.false_eq_true, if_false, hdocs]
    have hf := find_split generated blogdb.docs [] _ hm hfresh
    rw [hf]
    simp [SingleResult.Decode, unmarshal, marshal, decodeID, decodeString]

/-- C2 at authorId "a1", title "T", content "C" on `sampleDb`, the storage
assigning `freshId`. -/
theorem create_then_read_witness :
    (CreateBlog sampleDb false freshId ⟨some ⟨"", "a1", "T", "C"⟩⟩).1
      = .ok ⟨some ⟨freshId.Hex, "a1", "T", "C"⟩⟩ ∧
    freshId.Hex ≠ "" ∧
    (ReadBlog (CreateBlog sampleDb false freshId ⟨some ⟨"", "a1", "T", "C"⟩⟩).2 false
      ⟨freshId.Hex⟩).1 = .ok ⟨some ⟨freshId.Hex, "a1", "T", "C"⟩⟩ :=
  create_then_read sampleDb false freshId "" "a1" "T" "C" ⟨⟨.objectID freshId⟩, by decide⟩

/-- C3: on a store holding a document with identifier `i` (storage healthy),
UpdateBlog with the hex form of `i` returns the supplied authorId, title and
content under the id `i`; in the collection exactly the first document with
identifier `i` is replaced by its updated version, which keeps identifier `i`
and carries the new values, every other document is unchanged; and a following
ReadBlog of `i` returns the new values. -/
theorem update_returns_new_values (blogdb : Collection) (i : ObjectID)
    (authorId title content : String) (h : ∃ d ∈ blogdb.docs, d._id = .objectID i) :
    (UpdateBlog blogdb false ⟨some ⟨i.Hex, authorId, title, content⟩⟩).1
      = .ok ⟨some ⟨i.Hex, authorId, title, content⟩⟩ ∧
    (∃ pre d post d1, blogdb.docs = pre ++ d :: post ∧ d._id = .objectID i ∧
      (∀ e ∈ pre, e._id ≠ .objectID i) ∧
      (UpdateBlog blogdb false ⟨some ⟨i.Hex, authorId, title, content⟩⟩).2.docs
        = pre ++ d1 :: post ∧
      d1._id = .objectID i ∧ d1.author_id = some (.string authorId) ∧
      d1.title = some (.string title) ∧ d1.content = some (.string content)) ∧
    (ReadBlog (UpdateBlog blogdb false ⟨some ⟨i.Hex, authorId, title, content⟩⟩).2 false
      ⟨i.Hex⟩).1 = .ok ⟨some ⟨i.Hex, authorId, title, content⟩⟩ := by
  obtain ⟨pre, d, post, hsplit, hd, hpre⟩ := first_match_split i blogdb.docs h
  have hu := updateFirst_split i ⟨authorId, title, content⟩ pre post d hd hpre
  rw [← hsplit] at hu
  have hd1 : (applySet ⟨authorId, title, content⟩ d)._id = .objectID i := by
    simpa [applySet] using hd
  have hdec := unmarshal_applySet ⟨authorId, title, content⟩ d i BlogItem.zero hd
  have hrun : UpdateBlog blogdb false ⟨some ⟨i.Hex, authorId, title, content⟩⟩
      = (.ok ⟨some ⟨i.Hex, authorId, title, content⟩⟩,
         { blogdb with
           calls := blogdb.calls ++ [Call.FindOneAndUpdate i ⟨authorId, title, content⟩]
           docs := pre ++ applySet ⟨authorId, title, content⟩ d :: post }) := by
    simp only [UpdateBlog, pb.Blog.GetId, pb.Blog.GetAuthorId, pb.Blog.GetTitle,
      pb.Blog.GetContent, ObjectIDFromHex_Hex, Collection.FindOneAndUpdate, Bool.false_eq_true,
      if_false, hu, SingleResult.Decode, hdec]
  rw [hrun]
  refine ⟨rfl, ⟨pre, d, post, applySet ⟨authorId, title, content⟩ d, hsplit, hd, hpre, rfl, hd1,
    rfl, rfl, rfl⟩, ?_⟩
  have hf := find_split i pre post _ hd1 hpre
  simp only [ReadBlog, ObjectIDFromHex_Hex, Collection.FindOne, Bool.false_eq_true, if_false, hf,
    SingleResult.Decode, hdec]

/-- C3 at `lettersId` on `sampleDb` with the new values "a2", "T2", "C2". -/
theorem update_returns_new_values_witness :
    (UpdateBlog sampleDb false ⟨some ⟨lettersId.Hex, "a2", "T2", "C2"⟩⟩).1
      = .ok ⟨some ⟨lettersId.Hex, "a2", "T2", "C2"⟩⟩ ∧
    (ReadBlog (UpdateBlog sampleDb false ⟨some ⟨lettersId.Hex, "a2", "T2", "C2"⟩⟩).2 false
      ⟨lettersId.Hex⟩).1 = .ok ⟨some ⟨lettersId.Hex, "a2", "T2", "C2"⟩⟩ :=
  have h := update_returns_new_values sampleDb lettersId "a2" "T2" "C2"
    ⟨lettersDoc, by decide, rfl⟩
  ⟨h.1, h.2.2⟩

/-- C4 (as stated, refuted): `badTitleDoc` is matched by `sampleId` and does
not decode, ReadBlog answers NotFound, yet UpdateBlog on the same identifier
returns a record and rewrites the document. -/
theorem update_on_undecodable_document_counterexample :
    ObjectIDFromHex "5f1e3c2a9b7d4e0012345678" = some sampleId ∧
    [badTitleDoc].find? (matchesId sampleId) = some badTitleDoc ∧
    unmarshal badTitleDoc BlogItem.zero = .error .decode ∧
    (ReadBlog ⟨[badTitleDoc], []⟩ false ⟨"5f1e3c2a9b7d4e0012345678"⟩).1 = .status .NotFound ∧
    (UpdateBlog ⟨[badTitleDoc], []⟩ false
      ⟨some ⟨"5f1e3c2a9b7d4e0012345678", "a2", "T2", "C2"⟩⟩).1
      = .ok ⟨some ⟨"5f1e3c2a9b7d4e0012345678", "a2", "T2", "C2"⟩⟩ ∧
    (UpdateBlog ⟨[badTitleDoc], []⟩ false
      ⟨some ⟨"5f1e3c2a9b7d4e0012345678", "a2", "T2", "C2"⟩⟩).2.docs ≠ [badTitleDoc] := by
  decide

/-- C4 (amended): for a well-formed identifier that matches no document,
ReadBlog and UpdateBlog each return NotFound and leave the documents unchanged,
whether or not the storage call failed; ReadBlog also returns NotFound, with
the documents unchanged, when the matched document fails to decode. -/
theorem not_found_for_missing_or_undecodable (blogdb : Collection) (fault : Bool) (id : String)
    (oid : ObjectID) (ureq : pb.UpdateBlog) (hu : pb.Blog.GetId ureq.Blog = id)
    (h : ObjectIDFromHex id = some oid) :
    ((∀ d ∈ blogdb.docs, d._id ≠ .objectID oid) →
      (ReadBlog blogdb fault ⟨id⟩).1 = .status .NotFound ∧
      (ReadBlog blogdb fault ⟨id⟩).2.docs = blogdb.docs ∧
      (UpdateBlog blogdb fault ureq).1 = .status .NotFound ∧
      (UpdateBlog blogdb fault ureq).2.docs = blogdb.docs) ∧
    (∀ d, blogdb.docs.find? (matchesId oid) = some d →
      (∃ e, unmarshal d BlogItem.zero = .error e) →
      (ReadBlog blogdb fault ⟨id⟩).1 = .status .NotFound ∧
      (ReadBlog blogdb fault ⟨id⟩).2.docs = blogdb.docs) := by
  subst hu
  constructor
  · intro hnone
    have hf := find_none oid blogdb.docs hnone
    have hup := updateFirst_none oid
      ⟨pb.Blog.GetAuthorId ureq.Blog, pb.Blog.GetTitle ureq.Blog, pb.Blog.GetContent ureq.Blog⟩
      blogdb.docs hnone
    cases fault <;>
      simp [ReadBlog, UpdateBlog, h, Collection.FindOne, Collection.FindOneAndUpdate, hf, hup,
        SingleResult.Decode]
  · intro d hd hbad
    obtain ⟨e, hun⟩ := hbad
    cases fault <;>
      simp [ReadBlog, h, Collection.FindOne, hd, SingleResult.Decode, hun]

/-- C4 (amended) on the collection holding only `badTitleDoc`: `lettersId` matches
no document, `sampleId` matches the document that does not decode. -/
theorem not_found_for_missing_or_undecodable_witness :
    ((ReadBlog ⟨[badTitleDoc], []⟩ false ⟨lettersId.Hex⟩).1 = .status .NotFound ∧
      (ReadBlog ⟨[badTitleDoc], []⟩ false ⟨lettersId.Hex⟩).2.docs = [badTitleDoc] ∧
      (UpdateBlog ⟨[badTitleDoc], []⟩ false ⟨some ⟨lettersId.Hex, "a", "t", "c"⟩⟩).1
        = .status .NotFound ∧
      (UpdateBlog ⟨[badTitleDoc], []⟩ false ⟨some ⟨lettersId.Hex, "a", "t", "c"⟩⟩).2.docs
        = [badTitleDoc]) ∧
    ((ReadBlog ⟨[badTitleDoc], []⟩ false ⟨sampleId.Hex⟩).1 = .status .NotFound ∧
      (ReadBlog ⟨[badTitleDoc], []⟩ false ⟨sampleId.Hex⟩).2.docs = [badTitleDoc]) :=
  ⟨(not_found_for_missing_or_undecodable ⟨[badTitleDoc], []⟩ false lettersId.Hex lettersId
      ⟨some ⟨lettersId.Hex, "a", "t", "c"⟩⟩ rfl (ObjectIDFromHex_Hex lettersId)).1 (by decide),
   (not_found_for_missing_or_undecodable ⟨[badTitleDoc], []⟩ false sampleId.Hex sampleId
      ⟨some ⟨sampleId.Hex, "a", "t", "c"⟩⟩ rfl (ObjectIDFromHex_Hex sampleId)).2 badTitleDoc
      (by decide) ⟨.decode, by decide⟩⟩

/-- C5: for a well-formed identifier `i`, a DeleteBlog whose storage delete
succeeds returns success = true; if no document has identifier `i` the
documents are unchanged, and if one has, the collection loses exactly the first
document with identifier `i` and keeps every other document as it was. -/
theorem delete_reports_success (blogdb : Collection) (fault : Bool) (id : String) (i : ObjectID)
    (h : ObjectIDFromHex id = some i)
    (hok : ∃ res, (blogdb.DeleteOne fault i).1 = .ok res) :
    (DeleteBlog blogdb fault ⟨id⟩).1 = .ok ⟨true⟩ ∧
    ((∀ d ∈ blogdb.docs, d._id ≠ .objectID i) →
      (DeleteBlog blogdb fault ⟨id⟩).2.docs = blogdb.docs) ∧
    ((∃ d ∈ blogdb.docs, d._id = .objectID i) →
      ∃ pre d post, blogdb.docs = pre ++ d :: post ∧ d._id = .objectID i ∧
        (∀ e ∈ pre, e._id ≠ .objectID i) ∧
        (DeleteBlog blogdb fault ⟨id⟩).2.docs = pre ++ post) := by
  obtain ⟨res, hres⟩ := hok
  have hfault : fault = false := by
    cases fault with
    | false => rfl
    | true => simp [Collection.DeleteOne] at hres
  subst hfault
  refine ⟨?_, ?_, ?_⟩
  · simp [DeleteBlog, h, Collection.DeleteOne]
  · intro hnone
    simp [DeleteBlog, h, Collection.DeleteOne, deleteFirst_none i blogdb.docs hnone]
  · intro hex
    obtain ⟨pre, d, post, hsplit, hd, hpre⟩ := first_match_split i blogdb.docs hex
    refine ⟨pre, d, post, hsplit, hd, hpre, ?_⟩
    have hdel := deleteFirst_split i pre post d hd hpre
    rw [← hsplit] at hdel
    simp [DeleteBlog, h, Collection.DeleteOne, hdel]

/-- C5 on `sampleDb` (the document exists) and on a collection without a document
under `sampleId`. -/
theorem delete_reports_success_witness :
    (DeleteBlog sampleDb false ⟨sampleId.Hex⟩).1 = .ok ⟨true⟩ ∧
    (DeleteBlog ⟨[lettersDoc], []⟩ false ⟨sampleId.Hex⟩).1 = .ok ⟨true⟩ ∧
    (DeleteBlog ⟨[lettersDoc], []⟩ false ⟨sampleId.Hex⟩).2.docs = [lettersDoc] :=
  ⟨(delete_reports_success sampleDb false sampleId.Hex sampleId (ObjectIDFromHex_Hex sampleId)
      ⟨_, rfl⟩).1,
   (delete_reports_success ⟨[lettersDoc], []⟩ false sampleId.Hex sampleId
      (ObjectIDFromHex_Hex sampleId) ⟨_, rfl⟩).1,
   (delete_reports_success ⟨[lettersDoc], []⟩ false sampleId.Hex sampleId
      (ObjectIDFromHex_Hex sampleId) ⟨_, rfl⟩).2.1 (by decide)⟩

/-- C6 (the code at the failing input): the identifier is well formed, the
storage delete fails in transport, and DeleteBlog answers InvalidArgument. -/
theorem delete_storage_failure_is_InvalidArgument :
    ObjectIDFromHex "5f1e3c2a9b7d4e0012345678" = some sampleId ∧
    (sampleDb.DeleteOne true sampleId).1 = .error .transport ∧
    (DeleteBlog sampleDb true ⟨"5f1e3c2a9b7d4e0012345678"⟩).1 = .status .InvalidArgument := by
  decide

/-- C8 (as stated, refuted): `ABCDEFABCDEFABCDEFABCDEF` is accepted by the
translation, re-encoding gives the lower-case string, and ReadBlog of it on a
collection holding the document returns the lower-case id. -/
theorem uppercase_id_counterexample :
    ObjectIDFromHex "ABCDEFABCDEFABCDEFABCDEF" = some lettersId ∧
    lettersId.Hex = "abcdefabcdefabcdefabcdef" ∧
    lettersId.Hex ≠ "ABCDEFABCDEFABCDEFABCDEF" ∧
    (ReadBlog sampleDb false ⟨"ABCDEFABCDEFABCDEFABCDEF"⟩).1
      = .ok ⟨some ⟨"abcdefabcdefabcdefabcdef", "a9", "T9", "C9"⟩⟩ := by
  decide

/-- C8 (amended): for every string `h` the translation accepts, re-encoding
the identifier gives `h` with the digits `A`–`F` in lower case, which is `h`
itself when `h` has no such digit; and whenever ReadBlog(h) returns a record,
its id is that lower-case form of `h`. -/
theorem id_roundtrip_lowercase (blogdb : Collection) (fault : Bool) (h : String) (oid : ObjectID)
    (hparse : ObjectIDFromHex h = some oid) :
    oid.Hex = lowerHex h ∧
    ((∀ c ∈ h.data, lowerDigit c = c) → oid.Hex = h) ∧
    (∀ res, (ReadBlog blogdb fault ⟨h⟩).1 = .ok res →
      res.Blog.map (fun b => b.Id) = some (lowerHex h)) := by
  have hhex := Hex_ObjectIDFromHex h oid hparse
  refine ⟨hhex, ?_, ?_⟩
  · intro hl
    rw [hhex, lowerHex]
    have : h.data.map lowerDigit = h.data := by
      conv_rhs => rw [← List.map_id h.data]
      exact List.map_congr_left (fun c hc => by simpa using hl c hc)
    rw [this]
  · intro res hres
    simp only [ReadBlog, hparse] at hres
    split at hres
    · simp at hres
    · simp only [Outcome.ok.injEq] at hres
      subst hres
      simp [hhex]

/-- C8 (amended) at `5f1e3c2a9b7d4e0012345678`, which has no upper-case digit:
the round trip gives the string back and ReadBlog on `sampleDb` returns it as
the id. -/
theorem id_roundtrip_lowercase_witness :
    ObjectIDFromHex "5f1e3c2a9b7d4e0012345678" = some sampleId ∧
    sampleId.Hex = "5f1e3c2a9b7d4e0012345678" ∧
    (ReadBlog sampleDb false ⟨"5f1e3c2a9b7d4e0012345678"⟩).1
      = .ok ⟨some ⟨"5f1e3c2a9b7d4e0012345678", "a0", "T0", "C0"⟩⟩ ∧
    (some "5f1e3c2a9b7d4e0012345678" : Option String)
      = some (lowerHex "5f1e3c2a9b7d4e0012345678") :=
  have h := id_roundtrip_lowercase sampleDb false "5f1e3c2a9b7d4e0012345678" sampleId (by decide)
  ⟨by decide, h.2.1 (by decide), by decide,
    h.2.2 ⟨some ⟨"5f1e3c2a9b7d4e0012345678", "a0", "T0", "C0"⟩⟩ (by decide)⟩

/-- C9 (the code at the failing input): a request without blog message on a
healthy store ends in a panic, after a document with three empty fields has
been inserted. -/
theorem create_without_blog_inserts_then_panics :
    CreateBlog ⟨[], []⟩ false sampleId ⟨none⟩ =
      (.panic,
       ⟨[{ _id := .objectID sampleId, author_id := some (.string ""), title := some (.string ""),
           content := some (.string "") }],
        [Call.InsertOne ⟨NilObjectID, "", "", ""⟩]⟩) := by
  decide

/-- What CreateBlog does to the documents: a returned record means the request
had a blog message, the record is that message under the new identifier, the
identifier was not present before, and the collection gained exactly the one
document built from the message; a returned status is Internal and means the
documents are unchanged. -/
theorem create_effect_on_documents (blogdb : Collection) (fault : Bool) (generated : ObjectID)
    (req : pb.CreateBlog) :
    (∀ res, (CreateBlog blogdb fault generated req).1 = .ok res →
      ∃ b, req.Blog = some b ∧ res = ⟨some { b with Id := generated.Hex }⟩ ∧
        (∀ e ∈ blogdb.docs, e._id ≠ .objectID generated) ∧
        (CreateBlog blogdb fault generated req).2.docs = blogdb.docs ++
          [{ _id := .objectID generated, author_id := some (.string b.AuthorId),
             title := some (.string b.Title), content := some (.string b.Content) }]) ∧
    (∀ c, (CreateBlog blogdb fault generated req).1 = .status c →
      c = .Internal ∧ (CreateBlog blogdb fault generated req).2.docs = blogdb.docs) := by
  have hm : ∀ item : BlogItem, item.ID = NilObjectID →
      (marshal item generated)._id = .objectID generated := by
    intro item hi
    simp [marshal, hi]
  constructor
  · intro res hres
    simp only [CreateBlog] at hres ⊢
    cases hins : (blogdb.InsertOne fault generated
        ⟨NilObjectID, pb.Blog.GetAuthorId req.Blog, pb.Blog.GetContent req.Blog,
          pb.Blog.GetTitle req.Blog⟩).1 with
    | error e => rw [hins] at hres; simp at hres
    | ok r =>
      obtain ⟨_, hfresh, hr, hd⟩ := InsertOne_ok _ _ _ _ _ hins
      rw [hm _ rfl] at hfresh hr
      subst hr
      rw [hins] at hres
      simp only at hres
      cases hb : req.Blog with
      | none => rw [hb] at hres; simp at hres
      | some b =>
        rw [hb] at hres hd
        simp only [Outcome.ok.injEq] at hres
        refine ⟨b, rfl, hres.symm, hfresh, ?_⟩
        rw [hd]
        simp [marshal, pb.Blog.GetAuthorId, pb.Blog.GetTitle, pb.Blog.GetContent]
  · intro c hc
    simp only [CreateBlog] at hc ⊢
    cases hins : (blogdb.InsertOne fault generated
        ⟨NilObjectID, pb.Blog.GetAuthorId req.Blog, pb.Blog.GetContent req.Blog,
          pb.Blog.GetTitle req.Blog⟩).1 with
    | error e =>
      rw [hins] at hc
      simp only [Outcome.status.injEq] at hc
      exact ⟨hc.symm, InsertOne_error_docs _ _ _ _ _ hins⟩
    | ok r =>
      obtain ⟨_, _, hr, _⟩ := InsertOne_ok _ _ _ _ _ hins
      rw [hm _ rfl] at hr
      subst hr
      rw [hins] at hc
      simp only at hc
      cases hb : req.Blog with
      | none => rw [hb] at hc; simp at hc
      | some b => rw [hb] at hc; simp at hc

/-! ## ListBlogs -/

/-- Advancing the cursor does not touch its close count. -/
theorem Next_closed (c : Cursor) : c.Next.2.closed = c.closed := by
  unfold Cursor.Next
  split
  · rfl
  · split <;> rfl

/-- A successful advance consumes one pending document. -/
theorem Next_true_length (c : Cursor) (h : c.Next.1 = true) :
    c.Next.2.batch.length + 1 = c.batch.length := by
  unfold Cursor.Next at h ⊢
  split
  · rename_i h0; simp [h0] at h
  · split
    · rename_i hb; simp [hb] at h
    · rename_i d rest hb
      simp [hb]

/-- With one `Next` call more than there are documents the loop of `ListBlogs`
ends; it leaves the `Close` count of the cursor alone, only appends to the
stream, and ends either by exhaustion or by the `Unavailable` return, the
latter with the cursor on a document that failed to decode. -/
theorem loop_ends : ∀ (fuel : Nat) (c : Cursor) (data : BlogItem) (stream : List pb.ListBlogsRes),
    c.batch.length < fuel →
    ∃ ex c1 more, ListBlogs.loop fuel c data stream = some (ex, c1, stream ++ more) ∧
      c1.closed = c.closed ∧
      (ex = .finished ∨ (ex = .returned .Unavailable ∧ ∃ data1 e, c1.Decode data1 = .error e))
  | 0, c, data, stream, h => by omega
  | fuel + 1, c, data, stream, h => by
    unfold ListBlogs.loop
    have hcl := Next_closed c
    have hlen := Next_true_length c
    rcases hN : c.Next with ⟨b, c1⟩
    rw [hN] at hcl hlen
    cases b with
    | false => exact ⟨.finished, c1, [], by simp, hcl, Or.inl rfl⟩
    | true =>
      simp only
      cases hD : c1.Decode data with
      | error e =>
        exact ⟨.returned .Unavailable, c1, [], by simp, hcl, Or.inr ⟨rfl, data, e, hD⟩⟩
      | ok data1 =>
        simp only
        have hl := hlen rfl
        simp only at hl hcl
        obtain ⟨ex, c2, more, hrun, hc2, hex⟩ :=
          loop_ends fuel c1 data1 (stream ++ [ListBlogs.record data1]) (by omega)
        refine ⟨ex, c2, ListBlogs.record data1 :: more, ?_, hc2.trans hcl, hex⟩
        rw [hrun]
        simp

/-- C10: whenever `Find` succeeds, ListBlogs returns with the cursor closed
exactly once, having only appended to the stream, on one of its three exits:
no error with no cursor error recorded, Unavailable with the cursor on a
document that failed to decode, or Internal with a cursor error recorded; when
`Find` fails it returns Internal, no cursor exists and nothing has been sent. -/
theorem cursor_released_exactly_once (blogdb : Collection) (failAfter : Option Nat)
    (req : pb.ListBlogsReq) (stream : List pb.ListBlogsRes) :
    (∃ err more c, ListBlogs blogdb false failAfter req stream
        = some ⟨err, stream ++ more, some c,
            { blogdb with calls := blogdb.calls ++ [Call.Find] }⟩ ∧
      c.closed = 1 ∧
      ((err = none ∧ c.Err = none) ∨
       (err = some .Unavailable ∧ ∃ data e, c.Decode data = .error e) ∨
       (err = some .Internal ∧ ∃ e, c.Err = some e))) ∧
    ListBlogs blogdb true failAfter req stream
      = some ⟨some .Internal, stream, none,
          { blogdb with calls := blogdb.calls ++ [Call.Find] }⟩ := by
  constructor
  · obtain ⟨ex, c1, more, hrun, hcl, hex⟩ :=
      loop_ends (blogdb.docs.length + 1) ⟨blogdb.docs, failAfter, none, none, 0⟩ BlogItem.zero
        stream (Nat.lt_succ_self _)
    simp only [ListBlogs, Collection.Find, Bool.false_eq_true, if_false]
    rw [hrun]
    rcases hex with rfl | ⟨rfl, hdec⟩
    · simp only
      cases hE : c1.Err with
      | none =>
        exact ⟨none, more, c1.Close, rfl, by simp [Cursor.Close, hcl], Or.inl ⟨rfl, hE⟩⟩
      | some e =>
        exact ⟨some .Internal, more, c1.Close, rfl, by simp [Cursor.Close, hcl],
          Or.inr (Or.inr ⟨rfl, e, hE⟩)⟩
    · exact ⟨some .Unavailable, more, c1.Close, rfl, by simp [Cursor.Close, hcl],
        Or.inr (Or.inl ⟨rfl, hdec⟩)⟩
  · simp only [ListBlogs, Collection.Find, if_true]

/-- The three exits of ListBlogs with an open cursor, on concrete collections:
normal completion, a document that does not decode, and a cursor error. -/
theorem ListBlogs_exits :
    (ListBlogs sampleDb false none ⟨⟩ []).map (fun r => (r.err, r.cursor.map (·.closed)))
      = some (none, some 1) ∧
    (ListBlogs ⟨[badTitleDoc, lettersDoc], []⟩ false none ⟨⟩ []).map
      (fun r => (r.err, r.cursor.map (·.closed))) = some (some .Unavailable, some 1) ∧
    (ListBlogs sampleDb false (some 1) ⟨⟩ []).map (fun r => (r.err, r.cursor.map (·.closed)))
      = some (some .Internal, some 1) := by
  decide

/-- C7 (the code at the failing input): both documents decode, the second one
has no `title` element, so its own record has the empty title; the second
record ListBlogs sends carries the title of the first document instead, while
ReadBlog of the second document returns the empty title. -/
theorem list_keeps_fields_of_previous_document :
    recordOf sampleDoc = some ⟨some ⟨"5f1e3c2a9b7d4e0012345678", "a0", "T0", "C0"⟩⟩ ∧
    recordOf untitledDoc = some ⟨some ⟨"abcdefabcdefabcdefabcdef", "a9", "", "C9"⟩⟩ ∧
    ListBlogs ⟨[sampleDoc, untitledDoc], []⟩ false none ⟨⟩ [] =
      some ⟨none,
        [⟨some ⟨"5f1e3c2a9b7d4e0012345678", "a0", "T0", "C0"⟩⟩,
         ⟨some ⟨"abcdefabcdefabcdefabcdef", "a9", "T0", "C9"⟩⟩],
        some ⟨[], none, some untitledDoc, none, 1⟩,
        ⟨[sampleDoc, untitledDoc], [Call.Find]⟩⟩ ∧
    (ReadBlog ⟨[sampleDoc, untitledDoc], []⟩ false ⟨"abcdefabcdefabcdefabcdef"⟩).1
      = .ok ⟨some ⟨"abcdefabcdefabcdefabcdef", "a9", "", "C9"⟩⟩ := by
  decide

/-- For a document carrying all three fields the previous contents of the
destination do not matter. -/
theorem unmarshal_complete (d : Document) (data : BlogItem) (h : d.complete) :
    unmarshal d data = unmarshal d BlogItem.zero := by
  obtain ⟨h1, h2, h3⟩ := h
  obtain ⟨id, a, t, c⟩ := d
  cases a with
  | none => exact absurd rfl h1
  | some a =>
    cases t with
    | none => exact absurd rfl h2
    | some t =>
      cases c with
      | none => exact absurd rfl h3
      | some c =>
        cases id <;> cases a <;> cases t <;> cases c <;> rfl

/-- A document that does not decode into a fresh item does not decode into any. -/
theorem unmarshal_error (d : Document) (data : BlogItem) (h : recordOf d = none) :
    ∃ e, unmarshal d data = .error e := by
  obtain ⟨id, a, t, c⟩ := d
  rcases id with _ | _ <;> rcases a with _ | _ | _ <;> rcases t with _ | _ | _ <;>
    rcases c with _ | _ | _ <;>
    first
      | exact ⟨.decode, rfl⟩
      | (simp [recordOf, unmarshal, decodeID, decodeString] at h)

/-- A healthy cursor with nothing pending answers `false` and stays as it is. -/
theorem Next_nil (c : Cursor) (hfa : c.failAfter = none) (hb : c.batch = []) :
    c.Next = (false, c) := by
  simp [Cursor.Next, hfa, hb]

/-- A healthy cursor with a pending document moves onto it. -/
theorem Next_cons (c : Cursor) (d : Document) (ds : List Document) (hfa : c.failAfter = none)
    (hb : c.batch = d :: ds) :
    c.Next = (true, { c with batch := ds, Current := some d, failAfter := none }) := by
  simp [Cursor.Next, hfa, hb]

/-- The loop of `ListBlogs` on a healthy cursor, up to the first document that
does not decode: the documents before it, each carrying all three fields, are
sent as their own records, in order. `rest` is what follows them: nothing
(the loop finishes) or a document that fails to decode and whatever is behind
it (the loop returns `Unavailable`). -/
theorem loop_prefix : ∀ (pre : List Document) (rest : List Document) (c : Cursor) (data : BlogItem)
    (stream recs : List pb.ListBlogsRes) (fuel : Nat),
    c.batch = pre ++ rest → c.failAfter = none → (pre ++ rest).length < fuel →
    (∀ d ∈ pre, d.complete) → pre.map recordOf = recs.map some →
    (rest = [] ∨ ∃ d post, rest = d :: post ∧ recordOf d = none) →
    ∃ c1, ListBlogs.loop fuel c data stream
        = some (if rest = [] then .finished else .returned .Unavailable, c1, stream ++ recs) ∧
      c1.err = c.err ∧ c1.closed = c.closed
  | _, _, _, _, _, _, 0, _, _, hlt, _, _, _ => by omega
  | [], rest, c, data, stream, recs, fuel + 1, hb, hfa, _, _, hrecs, hrest => by
    have hr : recs = [] := by
      cases recs with
      | nil => rfl
      | cons r rs => simp at hrecs
    subst hr
    rcases hrest with rfl | ⟨d, post, rfl, hd⟩
    · simp only [List.append_nil] at hb
      refine ⟨c, ?_, rfl, rfl⟩
      simp [ListBlogs.loop, Next_nil c hfa hb]
    · simp only [List.nil_append] at hb
      obtain ⟨e, he⟩ := unmarshal_error d data hd
      refine ⟨{ c with batch := post, Current := some d, failAfter := none }, ?_, rfl, rfl⟩
      simp [ListBlogs.loop, Next_cons c d post hfa hb, Cursor.Decode, he]
  | d :: pre, rest, c, data, stream, recs, fuel + 1, hb, hfa, hlt, hcomp, hrecs, hrest => by
    cases recs with
    | nil => simp at hrecs
    | cons r rs =>
      simp only [List.map_cons, List.cons.injEq] at hrecs
      obtain ⟨hr, hrs⟩ := hrecs
      have hdc := hcomp d (List.mem_cons_self _ _)
      have hun := unmarshal_complete d data hdc
      obtain ⟨item, hitem, hrec⟩ : ∃ item, unmarshal d BlogItem.zero = .ok item ∧
          ListBlogs.record item = r := by
        unfold recordOf at hr
        split at hr
        · rename_i item hitem
          exact ⟨item, hitem, by simpa using hr⟩
        · simp at hr
      rw [List.cons_append] at hb
      obtain ⟨c1, hrun, herr, hcl⟩ := loop_prefix pre rest
        { c with batch := pre ++ rest, Current := some d, failAfter := none } item
        (stream ++ [r]) rs fuel rfl rfl (by simp at hlt ⊢; omega)
        (fun e he => hcomp e (List.mem_cons_of_mem _ he)) hrs hrest
      refine ⟨c1, ?_, herr, hcl⟩
      simp only [ListBlogs.loop, Next_cons c d (pre ++ rest) hfa hb, Cursor.Decode, hun, hitem, hrec]
      rw [hrun]
      simp

/-- ListBlogs on a healthy store whose documents carry all three fields: if
every document decodes, exactly the records of the documents are sent, in
order, and the call completes without error; if `d` is the first document that
does not decode, exactly the records of the documents before it are sent and
the call returns Unavailable. In both cases the cursor is closed once. -/
theorem list_emits_records_in_order (blogdb : Collection) (req : pb.ListBlogsReq)
    (stream recs : List pb.ListBlogsRes) (pre rest : List Document)
    (hdocs : blogdb.docs = pre ++ rest) (hcomp : ∀ d ∈ pre, d.complete)
    (hrecs : pre.map recordOf = recs.map some)
    (hrest : rest = [] ∨ ∃ d post, rest = d :: post ∧ recordOf d = none) :
    ∃ c, ListBlogs blogdb false none req stream
        = some ⟨if rest = [] then none else some .Unavailable, stream ++ recs, some c,
            { blogdb with calls := blogdb.calls ++ [Call.Find] }⟩ ∧
      c.closed = 1 ∧ recs.length = pre.length := by
  have hlen : recs.length = pre.length := by
    have := congrArg List.length hrecs
    simpa using this.symm
  obtain ⟨c1, hrun, herr, hcl⟩ := loop_prefix pre rest ⟨blogdb.docs, none, none, none, 0⟩
    BlogItem.zero stream recs (blogdb.docs.length + 1) hdocs rfl (by rw [hdocs]; omega) hcomp hrecs
    hrest
  refine ⟨c1.Close, ?_, by simp [Cursor.Close, hcl], hlen⟩
  simp only [ListBlogs, Collection.Find, Bool.false_eq_true, if_false]
  rw [hrun]
  by_cases hr : rest = []
  · simp only [hr, if_true]
    simp only at herr
    simp [Cursor.Err, herr]
  · simp only [hr, if_false]

/-- The two cases of `list_emits_records_in_order` on concrete collections. -/
theorem list_emits_records_in_order_witness :
    (∃ c, ListBlogs sampleDb false none ⟨⟩ []
        = some ⟨none,
            [⟨some ⟨"5f1e3c2a9b7d4e0012345678", "a0", "T0", "C0"⟩⟩,
             ⟨some ⟨"abcdefabcdefabcdefabcdef", "a9", "T9", "C9"⟩⟩], some c,
            ⟨[sampleDoc, lettersDoc], [Call.Find]⟩⟩ ∧ c.closed = 1) ∧
    (∃ c, ListBlogs ⟨[lettersDoc, badTitleDoc], []⟩ false none ⟨⟩ []
        = some ⟨some .Unavailable,
            [⟨some ⟨"abcdefabcdefabcdefabcdef", "a9", "T9", "C9"⟩⟩], some c,
            ⟨[lettersDoc, badTitleDoc], [Call.Find]⟩⟩ ∧ c.closed = 1) :=
  ⟨(list_emits_records_in_order sampleDb ⟨⟩ []
      [⟨some ⟨"5f1e3c2a9b7d4e0012345678", "a0", "T0", "C0"⟩⟩,
       ⟨some ⟨"abcdefabcdefabcdefabcdef", "a9", "T9", "C9"⟩⟩] [sampleDoc, lettersDoc] [] rfl
      (by decide) (by decide) (Or.inl rfl)).imp fun _ h => ⟨h.1, h.2.1⟩,
   (list_emits_records_in_order ⟨[lettersDoc, badTitleDoc], []⟩ ⟨⟩ []
      [⟨some ⟨"abcdefabcdefabcdefabcdef", "a9", "T9", "C9"⟩⟩] [lettersDoc] [badTitleDoc] rfl
      (by decide) (by decide) (Or.inr ⟨badTitleDoc, [], rfl, by decide⟩)).imp
      fun _ h => ⟨h.1, h.2.1⟩⟩

end Blog
